import Mathlib

/-!
Verification development for `url_analyzer_complete.py`, a Streamlit app that
groups URLs by first path segment and aggregates traffic metrics.

The Python core is shallowly embedded below:

* URL parsing (`parse_url_structure`, `get_subdomain`) calls CPython 3.11
  `urllib.parse.urlparse`; the relevant algorithm (`urlsplit` plus parameter
  splitting) is transcribed here over `List Char`.  Two points of the library
  are abstracted and documented at their definitions: NFKC validation of
  non-ASCII authorities and the character-level validation of bracketed IPv6
  hosts.  No claim in this development concerns non-ASCII or bracketed
  authorities; every theorem that needs the exact success/failure boundary of
  the parser either uses a bracket-free ASCII witness or assumes the input is
  bracket-free ASCII.
* Rows are records over the columns the script reads.  Metric cells carry
  either nothing (key absent from the dict row), an unparsable value, or an
  exact decimal number; pandas parses cells to binary float64, which agrees
  with the exact-decimal model on every value appearing in the claims.
* Python `sorted(..., reverse=True)` with a key function is a stable sort;
  a stable sort of a list with respect to a total preorder is unique, so it
  is modelled by `List.insertionSort` with the reversed key order.
* Python float `f"{x:.1f}"` formatting is modelled exactly: the argument is
  rounded to the nearest binary64 (ties to even) and that value is then
  rounded to one decimal digit.
-/

/-- Decidable equality for `Except`, used to evaluate the fallible
aggregation functions on concrete inputs. -/
instance {ε α : Type} [DecidableEq ε] [DecidableEq α] :
    DecidableEq (Except ε α) := fun a b =>
  match a, b with
  | .error e, .error f =>
    if h : e = f then .isTrue (by rw [h]) else .isFalse (by simp [h])
  | .error _, .ok _ => .isFalse (by simp)
  | .ok _, .error _ => .isFalse (by simp)
  | .ok x, .ok y =>
    if h : x = y then .isTrue (by rw [h]) else .isFalse (by simp [h])

/-! ### Character helpers for the `urllib.parse` transcription -/

/-- Membership of a character in CPython's `_WHATWG_C0_CONTROL_OR_SPACE`
(code points 0x00 through 0x20). -/
def c0ControlOrSpace (c : Char) : Bool :=
  c.toNat ≤ 32

/-- CPython `urlsplit` removes every occurrence of the three characters in
`_UNSAFE_URL_BYTES_TO_REMOVE`, namely tab, carriage return and newline. -/
def removeTabsNewlines (cs : List Char) : List Char :=
  cs.filter (fun c => c ≠ '\t' && c ≠ '\r' && c ≠ '\n')

/-- Membership in CPython's `scheme_chars`: ASCII letters, digits, and
`+`, `-`, `.`. -/
def isSchemeChar (c : Char) : Bool :=
  c.isAlpha || c.isDigit || c = '+' || c = '-' || c = '.'

/-- ASCII lowercasing of one character; `str.lower` restricted to the ASCII
range, which is all the scheme splitter ever lowercases (scheme characters
are ASCII by construction). -/
def asciiLower (c : Char) : Char :=
  if 65 ≤ c.toNat && c.toNat ≤ 90 then Char.ofNat (c.toNat + 32) else c

/-- Split a character list at the first occurrence of `c`, dropping that
occurrence; `none` when `c` does not occur.  This is Python's
`s.split(c, 1)` together with the `c in s` test. -/
def splitAtFirst (c : Char) : List Char → Option (List Char × List Char)
  | [] => none
  | x :: xs =>
    if x = c then some ([], xs)
    else
      match splitAtFirst c xs with
      | some (a, b) => some (x :: a, b)
      | none => none

/-- Python's `s.split(sep)` for a one-character separator, on character
lists: splits at every occurrence of `c`. -/
def splitEvery (c : Char) : List Char → List (List Char)
  | [] => [[]]
  | x :: xs =>
    match splitEvery c xs with
    | [] => [[]]
    | g :: gs => if x = c then [] :: g :: gs else (x :: g) :: gs

/-- Hexadecimal digit test, `[a-fA-F0-9]` of the IPvFuture pattern in
CPython `_check_bracketed_host`. -/
def isHexChar (c : Char) : Bool :=
  c.isDigit || ('a' ≤ c && c ≤ 'f') || ('A' ≤ c && c ≤ 'F')

/-! ### `urllib.parse.urlsplit` / `urlparse` (CPython 3.11) -/

/-- Result of `urlsplit`: the named 5-tuple `(scheme, netloc, path, query,
fragment)`. -/
structure UrlSplit where
  scheme : String
  netloc : String
  path : String
  query : String
  fragment : String
deriving DecidableEq

/-- CPython `_splitnetloc`: the netloc extends to the first `/`, `?` or `#`;
returns the pair (netloc, rest-from-delimiter). -/
def splitNetloc (cs : List Char) : List Char × List Char :=
  (cs.takeWhile (fun c => c ≠ '/' && c ≠ '?' && c ≠ '#'),
   cs.dropWhile (fun c => c ≠ '/' && c ≠ '?' && c ≠ '#'))

/-- Validation of a bracketed host, modelling CPython `_check_bracketed_host`.
The IPvFuture branch transcribes the regular expression
`v[a-fA-F0-9]+\..+` exactly.  The other branch calls
`ipaddress.ip_address`, accepting exactly textual IPv6 addresses; that
character-level validation is abstracted here to "nonempty, only hex digits,
colons and dots, with at least one colon".  No claim concerns bracketed
hosts; every theorem about parser success uses bracket-free inputs. -/
def checkBracketedHost (h : List Char) : Bool :=
  match h with
  | 'v' :: rest =>
    let hex := rest.takeWhile isHexChar
    (match rest.dropWhile isHexChar with
     | '.' :: tl => hex ≠ [] && tl ≠ []
     | _ => false)
  | _ =>
    h ≠ [] && h.all (fun c => isHexChar c || c = ':' || c = '.') &&
      h.any (fun c => c = ':')

/-- The scheme-splitting step of `urlsplit`: if the text before the first
colon is nonempty, starts with an ASCII letter and consists of scheme
characters only, it is removed and lowercased; otherwise nothing is split. -/
def splitScheme (cs : List Char) : List Char × List Char :=
  match splitAtFirst ':' cs with
  | some (before, after) =>
    if before ≠ [] && (before.headD ' ').isAlpha && before.all isSchemeChar then
      (before.map asciiLower, after)
    else
      ([], cs)
  | none => ([], cs)

/-- CPython 3.11 `urlsplit(url)` with the default arguments (`scheme=''`,
`allow_fragments=True`), for `str` input.  Transcribed step for step:
strip leading C0-control-or-space characters, remove tabs and newlines,
split the scheme, split the netloc after a leading `//` (raising
`ValueError` on unbalanced brackets, and on a bracketed host that fails
validation), then split off fragment and query.  `_checknetloc` raises
only for certain non-ASCII netlocs, namely those whose NFKC normalization
introduces delimiter characters (CPython also rejects
`http://℀`, since U+2100 normalizes to `a/c`); NFKC is not modelled, so
this model's failure set is a strict subset of CPython's.  Accordingly no
theorem below asserts parser success for any non-ASCII input: every
success statement carries an ASCII, bracket-free hypothesis, under which
the model and CPython agree. -/
def urlsplitE (url : String) : Except Unit UrlSplit :=
  let cs0 := removeTabsNewlines (url.toList.dropWhile c0ControlOrSpace)
  let s1 := splitScheme cs0
  let n1 :=
    if s1.2.take 2 = ['/', '/'] then splitNetloc (s1.2.drop 2) else ([], s1.2)
  let netloc := n1.1
  let hasL := netloc.any (fun c => c = '[')
  let hasR := netloc.any (fun c => c = ']')
  if (hasL && !hasR) || (hasR && !hasL) then .error ()
  else if hasL && hasR &&
      !checkBracketedHost (((netloc.dropWhile (fun c => c ≠ '[')).drop 1).takeWhile
        (fun c => c ≠ ']')) then .error ()
  else
    let f1 :=
      match splitAtFirst '#' n1.2 with
      | some (a, b) => (a, b)
      | none => (n1.2, [])
    let q1 :=
      match splitAtFirst '?' f1.1 with
      | some (a, b) => (a, b)
      | none => (f1.1, [])
    .ok ⟨s1.1.asString, netloc.asString, q1.1.asString,
         q1.2.asString, f1.2.asString⟩

/-- CPython's `uses_params` scheme list. -/
def usesParams : List String :=
  ["", "ftp", "hdl", "prospero", "http", "imap", "https", "shttp",
   "rtsp", "rtsps", "rtspu", "sip", "sips", "mms", "sftp", "tel"]

/-- CPython `_splitparams`, returning only the path part: when the path
contains a slash, the parameters start at the first `;` at or after the
last `/`; otherwise at the first `;`.  Only called when `;` occurs in the
path. -/
def splitParams (cs : List Char) : List Char :=
  if cs.any (fun c => c = '/') then
    match splitAtFirst '/' cs.reverse with
    | some (yrev, xrev) =>
      let suffix := '/' :: yrev.reverse
      (match splitAtFirst ';' suffix with
       | some (a, _) => xrev.reverse ++ a
       | none => cs)
    | none => cs
  else
    match splitAtFirst ';' cs with
    | some (a, _) => a
    | none => cs

/-- CPython 3.11 `urlparse(url)` restricted to the components the script
reads: `(scheme, netloc, path)`.  On top of `urlsplit`, when the scheme is
in `uses_params` and the path contains `;`, the parameters are split off
the path. -/
def urlparseE (url : String) : Except Unit (String × String × String) :=
  match urlsplitE url with
  | .error e => .error e
  | .ok r =>
    let path :=
      if usesParams.contains r.scheme && r.path.toList.any (fun c => c = ';') then
        (splitParams r.path.toList).asString
      else
        r.path
    .ok (r.scheme, r.netloc, path)

/-! ### The script's URL helpers -/

/-- `parse_url_structure(url)` from the script: on success returns
`(f"{scheme}://{netloc}", path or "/", [p for p in path.split('/') if p])`;
when `urlparse` raises, the bare `except` returns `(None, None, [])`. -/
def parse_url_structure (url : String) :
    Option String × Option String × List String :=
  match urlparseE url with
  | .error _ => (none, none, [])
  | .ok (scheme, netloc, path0) =>
    let domain := scheme ++ "://" ++ netloc
    let path := if path0 = "" then "/" else path0
    let parts := ((splitEvery '/' path.toList).map List.asString).filter
      (fun p => p ≠ "")
    (some domain, some path, parts)

/-- `get_subdomain(url)` from the script: `urlparse(url).netloc`, or `None`
when `urlparse` raises. -/
def get_subdomain (url : String) : Option String :=
  match urlparseE url with
  | .error _ => none
  | .ok (_, netloc, _) => some netloc

/-- Python truthiness of an `Optional[str]`: `None` and the empty string are
falsy.  Used for the script's `if not domain or not path` guard. -/
def falsyStr : Option String → Bool
  | none => true
  | some s => s = ""

/-! ### Rows and metric cells -/

/-- Exact decimal number `num * 10 ^ (-exp)`.  A metric cell that pandas
`pd.to_numeric` parses successfully is modelled by the exact decimal value
of its text; pandas produces binary float64, which coincides with the
exact value for every integer and dyadic-decimal datum in the claims. -/
structure Dec where
  num : ℤ
  exp : ℕ
deriving DecidableEq

/-- One cell of a metric column, as seen through
`pd.to_numeric(..., errors='coerce').fillna(0)`:
`missing` is a key absent from the dict row (NaN once the column exists),
`bad` is a present but unparsable value (empty string, text, NaN), and
`num` is a value parsing to the decimal `d`. -/
inductive Cell where
  | missing
  | bad
  | num (d : Dec)
deriving DecidableEq

/-- One row of the loaded table, restricted to the columns the script
reads: `Dirección` (URL), `Código de respuesta` (already in its `str()`
form, as the script always compares through `astype(str)`), and the three
metric columns `GA4 Sessions`, `Clics`, `Impresiones`. -/
structure Row where
  direccion : String
  codigo : String
  sessions : Cell
  clics : Cell
  impresiones : Cell
deriving DecidableEq

/-- Numeric value of a cell after coercion: `fillna(0)` turns `missing`
and `bad` into 0. -/
def cellNum : Cell → Dec
  | .missing => ⟨0, 0⟩
  | .bad => ⟨0, 0⟩
  | .num d => d

/-- Addition of exact decimals over a common power-of-ten denominator. -/
def Dec.add (a b : Dec) : Dec :=
  let e := max a.exp b.exp
  ⟨a.num * 10 ^ (e - a.exp) + b.num * 10 ^ (e - b.exp), e⟩

/-- Exact rational value of a decimal. -/
def Dec.val (a : Dec) : ℚ :=
  (a.num : ℚ) / (10 : ℚ) ^ a.exp

/-- Python `int()` on the value `num * 10 ^ (-exp)`: truncation toward
zero (`Int.tdiv`). -/
def Dec.trunc (a : Dec) : ℤ :=
  a.num.tdiv (10 ^ a.exp)

/-- Sum of the coerced values of one metric column over a row list, the
`pd.to_numeric(...).fillna(0).sum()` of the script (summation is exact
here; see `Dec`). -/
def colSum (rows : List Row) (f : Row → Cell) : Dec :=
  rows.foldl (fun acc r => acc.add (cellNum (f r))) ⟨0, 0⟩

/-- A metric column exists in `pd.DataFrame(rows_list)` exactly when some
dict row carries its key. -/
def columnExists (rows : List Row) (f : Row → Cell) : Bool :=
  rows.any (fun r => f r ≠ Cell.missing)

/-- One metric of `calculate_metrics`: when the column exists,
`int(pd.to_numeric(column, errors='coerce').fillna(0).sum())`; when the
column is absent from every row, `df.get(name, 0)` yields the scalar `0`,
on which `.fillna` raises `AttributeError`. -/
def colMetric (rows : List Row) (f : Row → Cell) : Except String ℤ :=
  if columnExists rows f then .ok (colSum rows f).trunc
  else .error "AttributeError"

/-- The aggregate metrics dict
`{'urls': ..., 'sessions': ..., 'clics': ..., 'impresiones': ...}`. -/
structure Metrics where
  urls : ℤ
  sessions : ℤ
  clics : ℤ
  impresiones : ℤ
deriving DecidableEq

/-- `calculate_metrics(rows_list)` from the script: the empty list returns
the all-zero dict before any DataFrame is built; otherwise the three
column sums are computed in order (each can raise, see `colMetric`) and
`urls` is `len(df)`, the number of rows. -/
def calculate_metrics (rows : List Row) : Except String Metrics :=
  if rows = [] then .ok ⟨0, 0, 0, 0⟩
  else
    match colMetric rows (fun r => r.sessions),
        colMetric rows (fun r => r.clics),
        colMetric rows (fun r => r.impresiones) with
    | .ok s, .ok c, .ok i => .ok ⟨rows.length, s, c, i⟩
    | .error e, _, _ => .error e
    | _, .error e, _ => .error e
    | _, _, .error e => .error e

/-! ### Grouping: `build_directory_structure` and `root_urls` -/

/-- Append a row under a key, creating the key at the end on first use:
the behaviour of `defaultdict(list)` under `structure[key].append(row)`,
with keys in first-appearance order. -/
def addToGroup (l : List (String × List Row)) (k : String) (r : Row) :
    List (String × List Row) :=
  match l with
  | [] => [(k, [r])]
  | (k', rs) :: t =>
    if k' = k then (k', rs ++ [r]) :: t else (k', rs) :: addToGroup t k r

/-- Whether the subdomain filter of `build_directory_structure` is active:
`if subdomain_filter and subdomain_filter != "Todos"` (Python truthiness:
`None` and `""` are inactive). -/
def subdomainFilterActive : Option String → Bool
  | none => false
  | some f => f ≠ "" && f ≠ "Todos"

/-- The per-row step of `build_directory_structure`'s loop: skip rows with
a falsy URL, rows whose parse yields a falsy domain or path, and rows
failing the subdomain filter; otherwise append the row under `/` (no
segments or path `/`) or `/{parts[0]}`. -/
def buildStep (subdomain_filter : Option String)
    (acc : List (String × List Row)) (row : Row) :
    List (String × List Row) :=
  if row.direccion == "" then acc
  else
    let parsed := parse_url_structure row.direccion
    if falsyStr parsed.1 || falsyStr parsed.2.1 then acc
    else
      if subdomainFilterActive subdomain_filter &&
          (get_subdomain row.direccion != some (subdomain_filter.getD "")) then
        acc
      else
        let key :=
          match parsed.2.2 with
          | [] => "/"
          | p0 :: _ => if parsed.2.1 == some "/" then "/" else "/" ++ p0
        addToGroup acc key row

/-- `build_directory_structure(df, filter_codes, subdomain_filter)` from
the script: optionally filter rows by response code
(`astype(str).isin(...)`; an empty or `None` filter list is inactive),
then fold the rows into a `defaultdict(list)` keyed by first path
segment.  The mapping is modelled as an association list in key
first-appearance order. -/
def build_directory_structure (df : List Row) (filter_codes : List String)
    (subdomain_filter : Option String) : List (String × List Row) :=
  let df :=
    if filter_codes ≠ [] then
      df.filter (fun r => filter_codes.contains r.codigo)
    else df
  df.foldl (buildStep subdomain_filter) []

/-- The root-row test of the script's root-URL loop:
`path == "/" or not parts` on the result of `parse_url_structure`. -/
def isRootRow (row : Row) : Bool :=
  let parsed := parse_url_structure row.direccion
  parsed.2.1 = some "/" || parsed.2.2 = []

/-- The `root_urls` collection of the script: every row of the filtered
table whose parse yields path `/` or no segments (rows on which `urlparse`
raises also land here, since their `parts` is `[]`). -/
def root_urls (rows : List Row) : List Row :=
  rows.filter isRootRow

/-! ### Ranking: `sorted_structure` and the displayed directory list -/

/-- The choice of ranking metric in the spec's `rankByMetric` contract. -/
inductive RankMetric where
  | urls
  | sessions
  | clics
  | impresiones
deriving DecidableEq

/-- Value the sort key `rankKeyE` below returns whenever it succeeds
(`rankKeyE_ok_val`): the truncated column sum for the three summed
metrics, the row count for `urls`.  The ranking theorem is stated over
this total value under the hypothesis that `rankKeyE` succeeds on every
group — exactly the condition under which the script's `sorted(...)`
returns a sequence instead of propagating an exception. -/
def rankValue : RankMetric → List Row → ℤ
  | .urls, rows => rows.length
  | .sessions, rows => (colSum rows (fun r => r.sessions)).trunc
  | .clics, rows => (colSum rows (fun r => r.clics)).trunc
  | .impresiones, rows => (colSum rows (fun r => r.impresiones)).trunc

/-- The script's sort key, `calculate_metrics(x[1])[metric]` for the
chosen metric: it raises whenever `calculate_metrics` raises — a nonempty
group with one of the three metric columns absent from every row, as for
sitemap-loaded data — and otherwise returns the requested field.
Python's `sorted` propagates such an exception, so the script produces a
ranked sequence only when this key succeeds on every group. -/
def rankKeyE (mc : RankMetric) (rows : List Row) : Except String ℤ :=
  match calculate_metrics rows with
  | .error e => .error e
  | .ok m =>
    match mc with
    | .urls => .ok m.urls
    | .sessions => .ok m.sessions
    | .clics => .ok m.clics
    | .impresiones => .ok m.impresiones

/-- Python `sorted(items, key=k, reverse=True)` is a stable sort; the
stable sort of a list under a total preorder is unique, so it is modelled
by insertion sort with the reversed key comparison (`a` may precede `b`
exactly when `k b ≤ k a`). -/
def sortedByKeyDesc (k : (String × List Row) → ℤ)
    (items : List (String × List Row)) : List (String × List Row) :=
  List.insertionSort (fun a b => k b ≤ k a) items

/-- `sorted_structure` from the script: the grouped directories sorted
descending by the `sessions` metric of their row lists.  The key the
script evaluates is `rankKeyE RankMetric.sessions`; when it raises on
some group, `sorted` propagates the exception and no ordered structure is
produced (in the app that aggregation crash has already surfaced at the
overall-totals step, see the C8 theorem), so the ranking theorem is
conditional on every key succeeding, and under that condition the key
equals `rankValue RankMetric.sessions`. -/
def sorted_structure (groups : List (String × List Row)) :
    List (String × List Row) :=
  sortedByKeyDesc (fun g => rankValue .sessions g.2) groups

/-- The displayed directory list: `sorted_structure` after
`del sorted_structure["/"]`.  The keys of the grouping are pairwise
distinct (`build_keys_nodup` below), so deleting the key `/` from the
`OrderedDict` is removing every pair whose key is `/`. -/
def ranked_directories (groups : List (String × List Row)) :
    List (String × List Row) :=
  (sorted_structure groups).filter (fun g => g.1 ≠ "/")

/-! ### The sidebar filter pipeline (`df_filtered`) -/

/-- A single row's pass through both sidebar filters: the response-code
filter (inactive when the selection is empty) and the subdomain filter
(inactive when the selection is `Todos`), the latter comparing the
precomputed `Subdominio` column `get_subdomain(url)` against the
selection. -/
def passesFilters (selected_codes : List String)
    (selected_subdomain : String) (r : Row) : Bool :=
  (selected_codes = [] || selected_codes.contains r.codigo) &&
  (selected_subdomain = "Todos" ||
    get_subdomain r.direccion = some selected_subdomain)

/-- `df_filtered` from the script: start from the loaded table, keep rows
whose `str` response code is in the selection when the selection is
nonempty, then keep rows whose `Subdominio` equals the selection when it
is not `Todos`.  Boolean-mask filtering preserves row order. -/
def df_filtered (rows : List Row) (selected_codes : List String)
    (selected_subdomain : String) : List Row :=
  let r1 :=
    if selected_codes ≠ [] then
      rows.filter (fun r => selected_codes.contains r.codigo)
    else rows
  if selected_subdomain ≠ "Todos" then
    r1.filter (fun r => get_subdomain r.direccion = some selected_subdomain)
  else r1

/-! ### `format_number` -/

/-- Round-half-to-even of the fraction `num / den` (`den` positive) to an
integer, using floor division. -/
def rheFrac (num den : ℤ) : ℤ :=
  let q := num.fdiv den
  let r := num - q * den
  if 2 * r < den then q
  else if den < 2 * r then q + 1
  else if q % 2 = 0 then q else q + 1

/-- Structurally fueled base-2 logarithm (greatest `e` with `2 ^ e ≤ n`,
and `0` for `n ≤ 1`); the fuel `n` always suffices. -/
def log2Fuel : ℕ → ℕ → ℕ
  | 0, _ => 0
  | fuel + 1, n => if n ≤ 1 then 0 else log2Fuel fuel (n / 2) + 1

/-- Nearest binary64 value of the fraction `num / den` (both positive,
value at least 1), returned as a fraction: the significand is rounded
half-to-even to 53 bits.  Values below 1 are returned unchanged — the
script only formats `num/1000` with `num ≥ 1000` and `num/1e6` with
`num ≥ 1e6`, both at least 1.  Exponent overflow (values of
2 ^ 1024 and beyond) is not modelled. -/
def toDouble (num den : ℤ) : ℤ × ℤ :=
  if num < den then (num, den)
  else
    let e := log2Fuel (num.fdiv den).toNat (num.fdiv den).toNat
    if 52 ≤ e then
      let s : ℤ := 2 ^ (e - 52)
      (rheFrac num (den * s) * s, 1)
    else
      let s : ℤ := 2 ^ (52 - e)
      (rheFrac (num * s) den, s)

/-- Python `f"{x:.1f}"` for a nonnegative `x = num / den`: the argument is
first the nearest binary64 of the fraction, and that value is printed
rounded to one decimal digit (a binary64 is never an exact decimal-tie at
one digit, so the tie case of `rheFrac` is unreachable here). -/
def fmtOneDecimal (num den : ℤ) : String :=
  let d := toDouble num den
  let r := (rheFrac (10 * d.1) d.2).toNat
  toString (r / 10) ++ "." ++ toString (r % 10)

/-- `format_number(num)` from the script, on the integers it is applied
to: millions and thousands are formatted through `f"{...:.1f}"`, anything
below 1000 through `str(int(num))`. -/
def format_number (num : ℤ) : String :=
  if 1000000 ≤ num then fmtOneDecimal num 1000000 ++ "M"
  else if 1000 ≤ num then fmtOneDecimal num 1000 ++ "K"
  else toString num

/-! ### Derived notions and concrete rows used by the theorems -/

/-- The condition under which `build_directory_structure`'s loop keeps a
row (read off the three `continue` guards of `buildStep`): nonempty URL,
truthy parsed domain and path, and passing the subdomain filter. -/
def keptRow (subdomain_filter : Option String) (r : Row) : Bool :=
  !(r.direccion == "") &&
  !(falsyStr (parse_url_structure r.direccion).1 ||
    falsyStr (parse_url_structure r.direccion).2.1) &&
  !(subdomainFilterActive subdomain_filter &&
    (get_subdomain r.direccion != some (subdomain_filter.getD "")))

/-- The group key `build_directory_structure` assigns to a kept row:
`/` for no segments or path `/`, else `/{parts[0]}`. -/
def keyOf (r : Row) : String :=
  match (parse_url_structure r.direccion).2.2 with
  | [] => "/"
  | p0 :: _ =>
    if (parse_url_structure r.direccion).2.1 == some "/" then "/" else "/" ++ p0

/-- A row with the given URL, response code 200 and all metric cells 0. -/
def mkRow0 (u : String) : Row :=
  ⟨u, "200", .num ⟨0, 0⟩, .num ⟨0, 0⟩, .num ⟨0, 0⟩⟩

/-- A row with the given URL and sessions value, other metrics 0: the rows
of the spec's worked scenario. -/
def mkRowS (u : String) (s : ℤ) : Row :=
  ⟨u, "200", .num ⟨s, 0⟩, .num ⟨0, 0⟩, .num ⟨0, 0⟩⟩

/-- A row whose sessions cell holds the decimal 0.5 (other metrics 0). -/
def rowHalf (u : String) : Row :=
  ⟨u, "200", .num ⟨5, 1⟩, .num ⟨0, 0⟩, .num ⟨0, 0⟩⟩

/-- A row as loaded from a sitemap: only the URL column is populated, so
every metric key is absent from the dict row. -/
def sitemapRow : Row :=
  ⟨"https://example.com/page", "nan", .missing, .missing, .missing⟩

/-- The grouped form of the spec's worked scenario, used to exercise the
ranking theorem: the root group (sessions 5) and the `/blog` group
(sessions 3 and 7). -/
def scenarioGroups : List (String × List Row) :=
  [("/", [mkRowS "https://a.com/" 5]),
   ("/blog", [mkRowS "https://a.com/blog/post1" 3,
              mkRowS "https://a.com/blog/post2" 7])]

/-! ## Helper lemmas -/

theorem length_filter_add_length_filter_not (p : α → Bool) (l : List α) :
    (l.filter p).length + (l.filter (fun a => !p a)).length = l.length := by
  induction l with
  | nil => rfl
  | cons x l ih =>
    by_cases h : p x = true <;> simp [List.filter_cons, h] <;> omega

theorem addToGroup_map_fst (l : List (String × List Row)) (k : String) (r : Row) :
    (addToGroup l k r).map Prod.fst =
      if k ∈ l.map Prod.fst then l.map Prod.fst else l.map Prod.fst ++ [k] := by
  induction l with
  | nil => simp [addToGroup]
  | cons hd t ih =>
    by_cases h : hd.1 = k
    · simp [addToGroup, h]
    · simp only [addToGroup, if_neg h, List.map_cons, ih]
      by_cases hk : k ∈ t.map Prod.fst <;>
        simp [hk, Ne.symm h]

theorem addToGroup_nodup (l : List (String × List Row)) (k : String) (r : Row)
    (h : (l.map Prod.fst).Nodup) : ((addToGroup l k r).map Prod.fst).Nodup := by
  rw [addToGroup_map_fst]
  by_cases hk : k ∈ l.map Prod.fst
  · simpa [hk] using h
  · simpa [hk, List.nodup_append] using h

theorem addToGroup_flatMap (l : List (String × List Row)) (k : String) (r : Row) :
    List.Perm ((addToGroup l k r).flatMap Prod.snd) (r :: l.flatMap Prod.snd) := by
  induction l with
  | nil => simp [addToGroup]
  | cons hd t ih =>
    by_cases h : hd.1 = k
    · simp only [addToGroup, if_pos h, List.flatMap_cons, List.append_assoc,
        List.singleton_append]
      exact List.perm_middle
    · simp only [addToGroup, if_neg h, List.flatMap_cons]
      exact (ih.append_left hd.2).trans List.perm_middle

theorem buildStep_eq (sf : Option String) (acc : List (String × List Row)) (r : Row) :
    buildStep sf acc r =
      if keptRow sf r then addToGroup acc (keyOf r) r else acc := by
  unfold buildStep keptRow keyOf
  cases h1 : (r.direccion == "") <;>
    cases h2 : (falsyStr (parse_url_structure r.direccion).1 ||
      falsyStr (parse_url_structure r.direccion).2.1) <;>
    cases h3 : (subdomainFilterActive sf &&
      (get_subdomain r.direccion != some (sf.getD ""))) <;>
    simp [h1, h2, h3]

theorem build_foldl_nodup (sf : Option String) (rows : List Row) :
    ∀ acc : List (String × List Row), (acc.map Prod.fst).Nodup →
      (((rows.foldl (buildStep sf) acc)).map Prod.fst).Nodup := by
  induction rows with
  | nil => intro acc h; simpa using h
  | cons r rows ih =>
    intro acc h
    rw [List.foldl_cons]
    refine ih _ ?_
    rw [buildStep_eq]
    by_cases hk : keptRow sf r <;> simp [hk, addToGroup_nodup, h]

theorem build_foldl_flatMap (sf : Option String) (rows : List Row) :
    ∀ acc : List (String × List Row),
      List.Perm ((rows.foldl (buildStep sf) acc).flatMap Prod.snd)
        (acc.flatMap Prod.snd ++ rows.filter (keptRow sf)) := by
  induction rows with
  | nil => intro acc; simp
  | cons r rows ih =>
    intro acc
    rw [List.foldl_cons, buildStep_eq]
    by_cases hk : keptRow sf r
    · rw [if_pos hk]
      have h2 := (addToGroup_flatMap acc (keyOf r) r).append_right
        (rows.filter (keptRow sf))
      simpa [List.filter_cons, hk] using
        (ih _).trans (h2.trans List.perm_middle.symm)
    · rw [if_neg hk]
      refine (ih _).trans ?_
      simp [List.filter_cons, hk]

theorem calculate_metrics_ok (rows : List Row) (m : Metrics)
    (h : calculate_metrics rows = .ok m) :
    m = ⟨rows.length, (colSum rows (fun r => r.sessions)).trunc,
         (colSum rows (fun r => r.clics)).trunc,
         (colSum rows (fun r => r.impresiones)).trunc⟩ := by
  by_cases hr : rows = []
  · subst hr
    have h0 : calculate_metrics ([] : List Row) = .ok ⟨0, 0, 0, 0⟩ := by decide
    rw [h0] at h
    simp only [Except.ok.injEq] at h
    rw [← h]
    decide
  · unfold calculate_metrics at h
    rw [if_neg hr] at h
    by_cases h1 : columnExists rows (fun r => r.sessions)
    all_goals by_cases h2 : columnExists rows (fun r => r.clics)
    all_goals by_cases h3 : columnExists rows (fun r => r.impresiones)
    all_goals simp [colMetric, h1, h2, h3] at h
    all_goals exact h.symm

/-! ## The claims -/

/-- C1: the spec claims a row whose URL is the malformed string
`"not a url"` is absent from every group produced by
`build_directory_structure` and from root-URL detection, without raising.
In the code, `urlparse("not a url")` yields scheme `""`, netloc `""` and
path `"not a url"`, so the domain is the truthy `"://"` and the intended
skip branch does not fire: the row lands in the group `/not a url`.  It is
indeed absent from root-URL detection and nothing raises. -/
theorem C1_malformed_url_lands_in_group :
    build_directory_structure [mkRow0 "not a url"] [] none =
      [("/not a url", [mkRow0 "not a url"])] ∧
    root_urls [mkRow0 "not a url"] = [] := by decide

/-- C8: the spec claims `calculate_metrics` always returns `url_count` equal
to the row-list length with nonnegative metric sums.  In the code, a metric
column absent from every row (as for any sitemap-loaded table, which only
has a URL column) makes `df.get(name, 0)` return the scalar `0`, on which
`.fillna` raises `AttributeError`; the empty list does return the all-zero
dict as claimed. -/
theorem C8_metric_columns_absent_raises :
    calculate_metrics [sitemapRow] = .error "AttributeError" ∧
    calculate_metrics ([] : List Row) = .ok ⟨0, 0, 0, 0⟩ := by decide

/-- C9: `format_number` returns `f"{n/1e6:.1f}M"` for n at least one
million, `f"{n/1e3:.1f}K"` for n in [1000, 1000000), and the plain integer
string below 1000; at the boundary 999999 formats as `"1000.0K"`, and
999, 1500, 2500000, 0 format as listed in the spec. -/
theorem C9_format_number (n : ℤ) (h : 0 ≤ n) :
    (1000000 ≤ n → format_number n = fmtOneDecimal n 1000000 ++ "M") ∧
    (1000 ≤ n → n < 1000000 → format_number n = fmtOneDecimal n 1000 ++ "K") ∧
    (n < 1000 → format_number n = toString n) ∧
    format_number 999999 = "1000.0K" ∧ format_number 999 = "999" ∧
    format_number 1500 = "1.5K" ∧ format_number 2500000 = "2.5M" ∧
    format_number 0 = "0" := by
  refine ⟨?_, ?_, ?_, by decide, by decide, by decide, by decide, by decide⟩
  · intro h1
    simp [format_number, h1]
  · intro h1 h2
    have h3 : ¬ (1000000 ≤ n) := by omega
    simp [format_number, h1, h3]
  · intro h1
    have h2 : ¬ (1000000 ≤ n) := by omega
    have h3 : ¬ (1000 ≤ n) := by omega
    simp [format_number, h2, h3]

/-- C9 witness: the theorem applied at n = 1500. -/
theorem C9_format_number_witness :
    format_number 1500 = fmtOneDecimal 1500 1000 ++ "K" :=
  (C9_format_number 1500 (by decide)).2.1 (by decide) (by decide)

/-- C2 counterexample: the claim says each metric sum truncates every row
value to an integer BEFORE summing, so fractional parts never accumulate.
On two rows whose sessions cells both hold 0.5, the code returns a
sessions sum of 1 (it sums first, truncating only the total), while
per-row truncation would give 0. -/
theorem C2_per_row_truncation_fails :
    calculate_metrics [rowHalf "https://a.com/x", rowHalf "https://a.com/y"] =
      .ok ⟨2, 1, 0, 0⟩ ∧
    ([rowHalf "https://a.com/x", rowHalf "https://a.com/y"].map
        (fun r => (cellNum r.sessions).trunc)).sum = 0 ∧
    (1 : ℤ) ≠ 0 := by decide

/-- C2 (amended): whenever `calculate_metrics` succeeds, each of the three
metric sums equals the truncation toward zero of the sum over rows of the
parsed-or-zero decimal values — truncation happens once on the total,
after summing, so fractional parts of individual rows can accumulate. -/
theorem C2_sum_then_truncate (rows : List Row) (m : Metrics)
    (h : calculate_metrics rows = .ok m) :
    m.sessions = (colSum rows (fun r => r.sessions)).trunc ∧
    m.clics = (colSum rows (fun r => r.clics)).trunc ∧
    m.impresiones = (colSum rows (fun r => r.impresiones)).trunc := by
  have hm := calculate_metrics_ok rows m h
  subst hm
  exact ⟨rfl, rfl, rfl⟩

/-- C2 witness: the amended theorem applied to the two 0.5-sessions rows. -/
theorem C2_sum_then_truncate_witness :
    (Metrics.mk 2 1 0 0).sessions =
      (colSum [rowHalf "https://a.com/x", rowHalf "https://a.com/y"]
        (fun r => r.sessions)).trunc ∧
    (Metrics.mk 2 1 0 0).clics =
      (colSum [rowHalf "https://a.com/x", rowHalf "https://a.com/y"]
        (fun r => r.clics)).trunc ∧
    (Metrics.mk 2 1 0 0).impresiones =
      (colSum [rowHalf "https://a.com/x", rowHalf "https://a.com/y"]
        (fun r => r.impresiones)).trunc :=
  C2_sum_then_truncate _ _ (by decide)

/-- C4: for every URL accepted by the parser, the segments list contains
no empty string (leading, trailing and duplicate slashes are filtered
out); the returned path is never empty, because an empty parsed path is
substituted by exactly `/` (fourth conjunct: whenever `urlparse` yields
an empty path component, the returned path is the string `/`; the fifth
conjunct evaluates this on `http://example.com`, whose raw path is
empty); and a path of exactly `/` yields an empty segments list. -/
theorem C4_segments_clean (url d p : String) (parts : List String)
    (h : parse_url_structure url = (some d, some p, parts)) :
    "" ∉ parts ∧ p ≠ "" ∧ (p = "/" → parts = []) ∧
    (∀ s n p0, urlparseE url = .ok (s, n, p0) → p0 = "" → p = "/") ∧
    parse_url_structure "http://example.com" =
      (some "http://example.com", some "/", []) := by
  unfold parse_url_structure at h
  cases hu : urlparseE url with
  | error e =>
    rw [hu] at h
    simp at h
  | ok t =>
    rw [hu] at h
    obtain ⟨s, n, p0⟩ := t
    simp only [Prod.mk.injEq, Option.some.injEq] at h
    obtain ⟨hd, hp, hparts⟩ := h
    refine ⟨?_, ?_, ?_, ?_, by decide⟩
    · intro hmem
      rw [← hparts] at hmem
      have := List.of_mem_filter hmem
      simp at this
    · by_cases h0 : p0 = ""
      · rw [if_pos h0] at hp
        rw [← hp]
        decide
      · rw [if_neg h0] at hp
        rw [← hp]
        exact h0
    · intro hp1
      rw [← hparts, hp, hp1]
      decide
    · intro s' n' p0' h' he
      simp only [Except.ok.injEq, Prod.mk.injEq] at h'
      obtain ⟨hs, hn, hp0⟩ := h'
      rw [← hp, if_pos (hp0.trans he)]

theorem filter_orderedInsert (k : α → ℤ) (v : ℤ) (a : α) (l : List α) :
    (List.orderedInsert (fun x y => k y ≤ k x) a l).filter (fun x => k x == v) =
      if k a = v then a :: l.filter (fun x => k x == v)
      else l.filter (fun x => k x == v) := by
  induction l with
  | nil =>
    by_cases h : k a = v <;> simp [List.orderedInsert, List.filter_cons, h]
  | cons b l ih =>
    simp only [List.orderedInsert]
    by_cases hr : k b ≤ k a
    · rw [if_pos hr]
      by_cases h : k a = v <;> simp [List.filter_cons, h]
    · rw [if_neg hr]
      have hab : k a < k b := lt_of_not_le hr
      by_cases h : k a = v
      · have hb : ¬ (k b = v) := by omega
        rw [if_pos h]
        simp [List.filter_cons, hb, ih, h]
      · rw [if_neg h]
        by_cases hb : k b = v <;> simp [List.filter_cons, hb, ih, h]

theorem filter_insertionSort (k : α → ℤ) (v : ℤ) (l : List α) :
    (List.insertionSort (fun x y => k y ≤ k x) l).filter (fun x => k x == v) =
      l.filter (fun x => k x == v) := by
  induction l with
  | nil => rfl
  | cons a l ih =>
    simp only [List.insertionSort]
    rw [filter_orderedInsert]
    by_cases h : k a = v <;> simp [List.filter_cons, h, ih]

theorem rankKeyE_ok_val (mc : RankMetric) (rows : List Row) (v : ℤ)
    (h : rankKeyE mc rows = .ok v) : v = rankValue mc rows := by
  unfold rankKeyE at h
  cases hcm : calculate_metrics rows with
  | error e =>
    rw [hcm] at h
    simp at h
  | ok m =>
    rw [hcm] at h
    have hm := calculate_metrics_ok rows m hcm
    subst hm
    cases mc
    all_goals simp only [Except.ok.injEq] at h
    all_goals rw [← h]
    all_goals rfl

/-- C5: for every mapping of groups (taken in key-insertion order) on
which the script's sort key `calculate_metrics(x[1])[metric]` evaluates
without raising on every group — when some group's key raises, `sorted`
propagates the exception and no ranked sequence is produced — and for
every choice of ranking metric: the key agrees with `rankValue` on every
group, and the ranked sequence is non-increasing in it, a permutation of
the input groups, and stable — groups with equal metric value keep the
original relative order.  The script's `sorted_structure` is the
`sessions` instance of this ranking. -/
theorem C5_ranking_sorted_stable (mc : RankMetric)
    (groups : List (String × List Row))
    (hok : ∀ g ∈ groups, (rankKeyE mc g.2).isOk = true) :
    (∀ g ∈ groups, rankKeyE mc g.2 = .ok (rankValue mc g.2)) ∧
    List.Sorted (fun a b => rankValue mc b.2 ≤ rankValue mc a.2)
      (sortedByKeyDesc (fun g => rankValue mc g.2) groups) ∧
    List.Perm (sortedByKeyDesc (fun g => rankValue mc g.2) groups) groups ∧
    (∀ v : ℤ, (sortedByKeyDesc (fun g => rankValue mc g.2) groups).filter
        (fun g => rankValue mc g.2 == v) =
      groups.filter (fun g => rankValue mc g.2 == v)) ∧
    sorted_structure groups =
      sortedByKeyDesc (fun g => rankValue RankMetric.sessions g.2) groups := by
  refine ⟨?_, ?_, List.perm_insertionSort _ _,
    fun v => filter_insertionSort (fun g => rankValue mc g.2) v groups, rfl⟩
  · intro g hg
    cases hv : rankKeyE mc g.2 with
    | error e =>
      have hb := hok g hg
      rw [hv] at hb
      simp [Except.isOk, Except.toBool] at hb
    | ok v =>
      exact congrArg Except.ok (rankKeyE_ok_val mc g.2 v hv)
  · letI : IsTotal (String × List Row)
        (fun a b => rankValue mc b.2 ≤ rankValue mc a.2) :=
      ⟨fun a b => le_total _ _⟩
    letI : IsTrans (String × List Row)
        (fun a b => rankValue mc b.2 ≤ rankValue mc a.2) :=
      ⟨fun a b c h1 h2 => le_trans h2 h1⟩
    exact List.sorted_insertionSort _ groups

/-- C5 witness: the theorem applied at the `sessions` metric to the
grouped spec scenario, on which every key evaluation succeeds. -/
theorem C5_ranking_witness :
    (∀ g ∈ scenarioGroups, rankKeyE RankMetric.sessions g.2 =
      .ok (rankValue RankMetric.sessions g.2)) ∧
    List.Sorted (fun a b => rankValue RankMetric.sessions b.2 ≤
        rankValue RankMetric.sessions a.2)
      (sortedByKeyDesc (fun g => rankValue RankMetric.sessions g.2)
        scenarioGroups) ∧
    List.Perm (sortedByKeyDesc (fun g => rankValue RankMetric.sessions g.2)
      scenarioGroups) scenarioGroups ∧
    (∀ v : ℤ, (sortedByKeyDesc (fun g => rankValue RankMetric.sessions g.2)
        scenarioGroups).filter
        (fun g => rankValue RankMetric.sessions g.2 == v) =
      scenarioGroups.filter
        (fun g => rankValue RankMetric.sessions g.2 == v)) ∧
    sorted_structure scenarioGroups =
      sortedByKeyDesc (fun g => rankValue RankMetric.sessions g.2)
        scenarioGroups :=
  C5_ranking_sorted_stable RankMetric.sessions scenarioGroups (by decide)

/-- C7: a row is in the filtered output exactly when it is an input row
passing both sidebar filters — the code filter is inactive when the
selection is empty, the subdomain filter when the selection is `Todos`
(rows whose URL fails to parse have a `None` subdomain and so never match
an active subdomain filter) — and the output is the order-preserving
sublist of passing rows. -/
theorem C7_filter_characterization (rows : List Row)
    (selected_codes : List String) (selected_subdomain : String) :
    df_filtered rows selected_codes selected_subdomain =
      rows.filter (fun r => passesFilters selected_codes selected_subdomain r) ∧
    ∀ r : Row, r ∈ df_filtered rows selected_codes selected_subdomain ↔
      r ∈ rows ∧ (selected_codes = [] ∨ r.codigo ∈ selected_codes) ∧
        (selected_subdomain = "Todos" ∨
          get_subdomain r.direccion = some selected_subdomain) := by
  have hmain : df_filtered rows selected_codes selected_subdomain =
      rows.filter (fun r => passesFilters selected_codes selected_subdomain r) := by
    by_cases hc : selected_codes = []
    · by_cases hs : selected_subdomain = "Todos"
      · simp [df_filtered, passesFilters, hc, hs]
      · simp [df_filtered, passesFilters, hc, hs]
    · by_cases hs : selected_subdomain = "Todos"
      · simp [df_filtered, passesFilters, hc, hs]
      · simp only [df_filtered, passesFilters, hc, hs, if_neg, if_pos,
          ne_eq, not_false_iff, if_true, ite_not, List.filter_filter]
        refine List.filter_congr (fun x _ => ?_)
        simp [Bool.and_comm]
  refine ⟨hmain, fun r => ?_⟩
  rw [hmain, List.mem_filter]
  simp [passesFilters, List.contains, and_assoc]

/-- C3 counterexample: a row whose URL is the empty string is silently
skipped by the grouper, so the union of all group value-lists is empty
while the input holds one row — `build_directory_structure` does not
partition this input. -/
theorem C3_empty_url_row_dropped :
    ¬ List.Perm ((build_directory_structure [mkRow0 ""] [] none).flatMap
      Prod.snd) [mkRow0 ""] := by
  intro hp
  have h0 : build_directory_structure [mkRow0 ""] [] none =
      ([] : List (String × List Row)) := by decide
  rw [h0] at hp
  have hlen := hp.length_eq
  simp at hlen

/-- C3 (amended): with no filters active, the grouping partitions exactly
the rows whose URL is a nonempty string parsing to a truthy domain and
path: group keys are pairwise distinct, and the concatenation of all group
value-lists is a permutation of exactly those rows; rows with an empty or
unparsable URL are dropped and appear in no group. -/
theorem C3_partition_of_kept_rows (rows : List Row) :
    ((build_directory_structure rows [] none).map Prod.fst).Nodup ∧
    List.Perm ((build_directory_structure rows [] none).flatMap Prod.snd)
      (rows.filter (keptRow none)) := by
  constructor
  · have h := build_foldl_nodup none rows [] (by simp)
    simpa [build_directory_structure] using h
  · have h := build_foldl_flatMap none rows []
    simpa [build_directory_structure] using h

/-- C6: the root bucket `/` is excluded from the ranked directory listing;
the separately reported root-URL list holds exactly the rows whose parsed
path is `/` or whose segments list is empty; and the overall totals are
computed over the full filtered row list, so the root rows are counted in
them. -/
theorem C6_root_excluded_ranked_included_totals (rows : List Row) :
    (∀ g ∈ ranked_directories (build_directory_structure rows [] none),
      g.1 ≠ "/") ∧
    (∀ r : Row, r ∈ root_urls rows ↔ r ∈ rows ∧
      ((parse_url_structure r.direccion).2.1 = some "/" ∨
        (parse_url_structure r.direccion).2.2 = [])) ∧
    (∀ m : Metrics, calculate_metrics rows = .ok m →
      m.urls = (root_urls rows).length +
        (rows.filter (fun r => !isRootRow r)).length) := by
  refine ⟨?_, ?_, ?_⟩
  · intro g hg
    have h := List.of_mem_filter hg
    simpa using h
  · intro r
    rw [root_urls, List.mem_filter]
    simp [isRootRow]
  · intro m hm
    have h := calculate_metrics_ok rows m hm
    rw [h]
    have hlen := length_filter_add_length_filter_not isRootRow rows
    simp only [root_urls]
    omega

/-- C6 witness: the theorem applied to the spec's worked scenario (root
row with 5 sessions, two `/blog` rows with 3 and 7). -/
theorem C6_root_totals_witness :
    (Metrics.mk 3 15 0 0).urls =
      (root_urls [mkRowS "https://a.com/" 5, mkRowS "https://a.com/blog/post1" 3,
        mkRowS "https://a.com/blog/post2" 7]).length +
      (([mkRowS "https://a.com/" 5, mkRowS "https://a.com/blog/post1" 3,
        mkRowS "https://a.com/blog/post2" 7].filter
          (fun r => !isRootRow r)).length) :=
  (C6_root_excluded_ranked_included_totals _).2.2 ⟨3, 15, 0, 0⟩ (by decide)

theorem splitAtFirst_eq (c : Char) (cs : List Char) :
    ∀ a b : List Char, splitAtFirst c cs = some (a, b) → cs = a ++ c :: b := by
  induction cs with
  | nil =>
    intro a b h
    simp [splitAtFirst] at h
  | cons x xs ih =>
    intro a b h
    by_cases hx : x = c
    · simp only [splitAtFirst, if_pos hx, Option.some.injEq, Prod.mk.injEq] at h
      obtain ⟨h1, h2⟩ := h
      subst h1
      subst h2
      simp [hx]
    · simp only [splitAtFirst, if_neg hx] at h
      cases hs : splitAtFirst c xs with
      | none =>
        rw [hs] at h
        simp at h
      | some p =>
        obtain ⟨pa, pb⟩ := p
        rw [hs] at h
        simp only [Option.some.injEq, Prod.mk.injEq] at h
        obtain ⟨h1, h2⟩ := h
        subst h1
        subst h2
        rw [List.cons_append, ih pa pb hs]

theorem splitScheme_snd_subset (cs : List Char) :
    ∀ x ∈ (splitScheme cs).2, x ∈ cs := by
  intro x hx
  unfold splitScheme at hx
  cases hs : splitAtFirst ':' cs with
  | none =>
    rw [hs] at hx
    simpa using hx
  | some p =>
    obtain ⟨a, b⟩ := p
    rw [hs] at hx
    by_cases hcond : (a ≠ [] && (a.headD ' ').isAlpha && a.all isSchemeChar) = true
    · simp only [hcond, if_true] at hx
      rw [splitAtFirst_eq ':' cs a b hs]
      exact List.mem_append.mpr (Or.inr (List.mem_cons_of_mem _ hx))
    · simp only [Bool.not_eq_true] at hcond
      simp only [hcond, if_false] at hx
      exact hx

theorem urlsplitE_ok_of_no_brackets (url : String)
    (h : ∀ c ∈ url.toList, c ≠ '[' ∧ c ≠ ']') :
    ∃ r : UrlSplit, urlsplitE url = .ok r := by
  have hcs0 : ∀ y, y ∈ removeTabsNewlines (url.toList.dropWhile c0ControlOrSpace) →
      y ∈ url.toList := by
    intro y hy
    have h1 : y ∈ url.toList.dropWhile c0ControlOrSpace :=
      (List.filter_sublist _).subset hy
    exact (List.dropWhile_sublist _).subset h1
  have hnet : ∀ x ∈ (splitNetloc ((splitScheme (removeTabsNewlines
      (url.toList.dropWhile c0ControlOrSpace))).2.drop 2)).1, x ∈ url.toList := by
    intro x hx
    unfold splitNetloc at hx
    have h1 := (List.takeWhile_sublist _).subset hx
    have h2 := List.drop_subset 2 _ h1
    exact hcs0 x (splitScheme_snd_subset _ x h2)
  cases he : urlsplitE url with
  | ok r => exact ⟨r, rfl⟩
  | error e =>
    exfalso
    unfold urlsplitE at he
    dsimp only at he
    split at he
    · split at he
      · rename_i hC1
        simp only [Bool.or_eq_true, Bool.and_eq_true] at hC1
        rcases hC1 with ⟨ha, _⟩ | ⟨ha, _⟩
        · obtain ⟨c, hc, hceq⟩ := List.any_eq_true.mp ha
          exact (h c (hnet c hc)).1 (by simpa using hceq)
        · obtain ⟨c, hc, hceq⟩ := List.any_eq_true.mp ha
          exact (h c (hnet c hc)).2 (by simpa using hceq)
      · split at he
        · rename_i hC2
          simp only [Bool.and_eq_true] at hC2
          obtain ⟨⟨ha, _⟩, _⟩ := hC2
          obtain ⟨c, hc, hceq⟩ := List.any_eq_true.mp ha
          exact (h c (hnet c hc)).1 (by simpa using hceq)
        · simp at he
    · split at he
      · rename_i hC1
        simp at hC1
      · split at he
        · rename_i hC2
          simp at hC2
        · simp at he

theorem pathOrRoot_ne_empty (s : String) : (if s = "" then "/" else s) ≠ "" := by
  by_cases h : s = "" <;> simp [h]

theorem falsyStr_some_false_of_ne (s : String) (h : s ≠ "") :
    falsyStr (some s) = false := by
  simp [falsyStr, h]

/-- C10 counterexample: on `"http://["`, `urlparse` raises
`ValueError: Invalid IPv6 URL`; the bare `except` in `parse_url_structure`
then returns `(None, None, [])` — the domain IS `None` for this string
input, and the grouper's skip branch is reachable: the row is dropped. -/
theorem C10_bracket_url_yields_none :
    parse_url_structure "http://[" = (none, none, []) ∧
    falsyStr (parse_url_structure "http://[").1 = true ∧
    build_directory_structure [mkRow0 "http://["] [] none = [] := by decide

/-- C10 (amended): `parse_url_structure` is total, but a `None` domain is
reachable — it arises when `urlparse` raises inside it, as on the
counterexample `http://[` (CPython can also raise on certain non-ASCII
authorities, which this development does not model).  For every ASCII
input containing neither `[` nor `]`, however — even a string with no
scheme or authority — parsing succeeds with a truthy (nonempty) domain
containing `://` and a truthy path, so the grouper's skip branch is
unreachable for all such inputs; in particular `"not a url"` yields
domain `"://"` and the raw string as path. -/
theorem C10_domain_truthy_for_bracket_free (url : String)
    (h : ∀ c ∈ url.toList, c.toNat < 128 ∧ c ≠ '[' ∧ c ≠ ']') :
    (∃ d p parts, parse_url_structure url = (some d, some p, parts) ∧
      d ≠ "" ∧ p ≠ "" ∧ falsyStr (some d) = false ∧ falsyStr (some p) = false) ∧
    parse_url_structure "not a url" =
      (some "://", some "not a url", ["not a url"]) := by
  refine ⟨?_, by decide⟩
  obtain ⟨r, hr⟩ := urlsplitE_ok_of_no_brackets url (fun c hc => (h c hc).2)
  have hup : urlparseE url = .ok (r.scheme, r.netloc,
      if usesParams.contains r.scheme && r.path.toList.any (fun c => c = ';') then
        (splitParams r.path.toList).asString
      else r.path) := by
    unfold urlparseE
    rw [hr]
  have hd : r.scheme ++ "://" ++ r.netloc ≠ "" := by
    intro he
    have hl : (r.scheme ++ "://" ++ r.netloc).length = 0 := by rw [he]; rfl
    rw [String.length_append, String.length_append] at hl
    have h3 : ("://" : String).length = 3 := rfl
    omega
  unfold parse_url_structure
  rw [hup]
  dsimp only
  exact ⟨r.scheme ++ "://" ++ r.netloc, _, _, rfl, hd, pathOrRoot_ne_empty _,
    falsyStr_some_false_of_ne _ hd,
    falsyStr_some_false_of_ne _ (pathOrRoot_ne_empty _)⟩

/-- C10 witness: the amended theorem applied at the ASCII, bracket-free
input `"not a url"`. -/
theorem C10_domain_truthy_witness :
    (∃ d p parts, parse_url_structure "not a url" = (some d, some p, parts) ∧
      d ≠ "" ∧ p ≠ "" ∧ falsyStr (some d) = false ∧ falsyStr (some p) = false) ∧
    parse_url_structure "not a url" =
      (some "://", some "not a url", ["not a url"]) :=
  C10_domain_truthy_for_bracket_free "not a url" (by decide)

/-- C4 witness: the theorem applied at `"http://example.com"`, an input
whose raw parsed path is empty, so the substitution clause is exercised:
the returned path is `/` and the segments list is empty. -/
theorem C4_segments_clean_witness :
    "" ∉ ([] : List String) ∧ ("/" : String) ≠ "" ∧
    (("/" : String) = "/" → ([] : List String) = []) ∧
    (∀ s n p0, urlparseE "http://example.com" = .ok (s, n, p0) → p0 = "" →
      ("/" : String) = "/") ∧
    parse_url_structure "http://example.com" =
      (some "http://example.com", some "/", []) :=
  C4_segments_clean "http://example.com" "http://example.com" "/" []
    (by decide)
